import Mathlib

/-!
Verification of the `gbsw` manifest-parser core (manifest model, merge engine,
project resolver, sync error aggregation, file materializer) against its
natural-language specification.  All definitions below are shallow embeddings
of the Rust source in `src/manifest-parser/src/lib.rs` and
`src/manifest-parser/src/sync.rs`; `Option String` stands for Rust's
`Option<String>`, `Except String` for `Result<_, Box<dyn Error>>` with the
error rendered as its message string.
-/

namespace Gbsw

/-- `Remote` struct, lib.rs:64-72. -/
structure Remote where
  name : String
  «alias» : Option String
  fetch : String
  pushurl : Option String
  review : Option String
  revision : Option String
deriving Repr, DecidableEq

/-- `Default` struct, lib.rs:74-84. -/
structure Default where
  remote : Option String
  revision : Option String
  dest_branch : Option String
  upstream : Option String
  sync_j : Option String
  sync_c : Option String
  sync_s : Option String
  sync_tags : Option String
deriving Repr, DecidableEq

/-- `ManifestServer` struct, lib.rs:86-89. -/
structure ManifestServer where
  url : String
deriving Repr, DecidableEq

/-- `Submanifest` struct, lib.rs:91-101. -/
structure Submanifest where
  name : String
  remote : Option String
  project : Option String
  manifest_name : Option String
  revision : Option String
  path : Option String
  groups : Option String
  default_groups : Option String
deriving Repr, DecidableEq

/-- `CopyFile` struct, lib.rs:178-182. -/
structure CopyFile where
  src : String
  dest : String
deriving Repr, DecidableEq

/-- `LinkFile` struct, lib.rs:184-188. -/
structure LinkFile where
  src : String
  dest : String
deriving Repr, DecidableEq

/-- `Annotation` struct, lib.rs:190-195. -/
structure Annotation where
  name : String
  value : String
  keep : Bool
deriving Repr, DecidableEq

/-- `Project` struct, lib.rs:103-130.  The two list fields `copyfiles` and
`linkfiles` are read by `sync_repos` (sync.rs:139 and sync.rs:147) as
per-project file directives although the parser-side struct in lib.rs does
not declare them; they are carried here (empty at parse time) so that the
materialization step of sync.rs can be embedded. -/
structure Project where
  name : String
  path : Option String
  remote : Option String
  revision : Option String
  dest_branch : Option String
  groups : Option String
  sync_c : Option String
  sync_s : Option String
  sync_tags : Option String
  upstream : Option String
  clone_depth : Option String
  force_path : Option String
  copyfiles : List CopyFile
  linkfiles : List LinkFile
deriving Repr, DecidableEq

/-- `ExtendProject` struct, lib.rs:132-143. -/
structure ExtendProject where
  name : String
  path : Option String
  dest_path : Option String
  groups : Option String
  revision : Option String
  remote : Option String
  dest_branch : Option String
  upstream : Option String
  base_rev : Option String
deriving Repr, DecidableEq

/-- `RemoveProject` struct, lib.rs:145-151. -/
structure RemoveProject where
  name : Option String
  path : Option String
  optional : Option String
  base_rev : Option String
deriving Repr, DecidableEq

/-- `RepoHooks` struct, lib.rs:153-157. -/
structure RepoHooks where
  in_project : String
  enabled_list : String
deriving Repr, DecidableEq

/-- `Superproject` struct, lib.rs:159-164. -/
structure Superproject where
  name : String
  remote : Option String
  revision : Option String
deriving Repr, DecidableEq

/-- `ContactInfo` struct, lib.rs:166-169. -/
structure ContactInfo where
  bugurl : String
deriving Repr, DecidableEq

/-- `Include` struct, lib.rs:171-176. -/
structure Include where
  name : String
  groups : Option String
  revision : Option String
deriving Repr, DecidableEq

/-- `Manifest` struct, lib.rs:30-62. -/
structure Manifest where
  notice : Option String
  remotes : List Remote
  default : Option Default
  manifest_server : Option ManifestServer
  submanifests : List Submanifest
  remove_projects : List RemoveProject
  projects : List Project
  extend_projects : List ExtendProject
  repo_hooks : Option RepoHooks
  superproject : Option Superproject
  contactinfo : Option ContactInfo
  includes : List Include
  copyfiles : List CopyFile
  linkfiles : List LinkFile
  annotations : List Annotation
deriving Repr, DecidableEq

/-! ### Project resolver (sync.rs `process_project`, lines 370-431)

The pure prefix of `process_project`: remote-name resolution, remote lookup,
URL construction and revision resolution, before any filesystem or git
activity. -/

/-- Remote-name precedence, sync.rs:382-386:
`project.remote` else `manifest.default.remote` else `"origin"`. -/
def remoteName (project : Project) (manifest : Manifest) : String :=
  ((project.remote).orElse (fun _ => manifest.default.bind (fun d => d.remote))).getD "origin"

/-- Remote lookup and error, sync.rs:389-397. -/
def resolveRemote (project : Project) (manifest : Manifest) : Except String Remote :=
  match manifest.remotes.find? (fun r => r.name = remoteName project manifest) with
  | some r => Except.ok r
  | none =>
      Except.error ("Remote '" ++ remoteName project manifest ++ "' not found in manifest")

/-- Repository URL construction, sync.rs:398. -/
def repoUrl (remote : Remote) (project : Project) : String :=
  remote.fetch ++ "/" ++ project.name ++ ".git"

/-- Revision precedence and the two distinct error messages, sync.rs:402-413. -/
def resolveRevision (project : Project) (manifest : Manifest) : Except String String :=
  match (project.revision).orElse (fun _ => manifest.default.bind (fun d => d.revision)) with
  | some rev => Except.ok rev
  | none =>
      if manifest.default.isNone then
        Except.error "Default element is missing and project does not specify a revision"
      else
        Except.error
          "Default element does not specify a revision and project does not specify a revision"

/-- The resolution prefix of `process_project` (sync.rs:370-415): produces the
repository URL and the revision, or the first resolution error. -/
def process_project_resolve (project : Project) (manifest : Manifest) :
    Except String (String × String) := do
  let remote ← resolveRemote project manifest
  let url := repoUrl remote project
  let rev ← resolveRevision project manifest
  return (url, rev)

/-! ### Manifest merger (sync.rs `merge_manifests`, lines 251-355) -/

/-- The match test of the `retain` closure, sync.rs:256-267: a project matches
a remove-project by name (narrowed by path when the remove-project also
carries one), or by path alone when the remove-project has no name. -/
def removeMatches (rp : RemoveProject) (p : Project) : Bool :=
  match rp.name with
  | some n =>
      if p.name = n then
        match rp.path with
        | some q => p.path = some q
        | none => true
      else false
  | none =>
      match rp.path with
      | some q => p.path = some q
      | none => false

/-- Full removal decision of the `retain` closure, sync.rs:256-284: a matched
project is removed unless the remove-project carries `base_rev` and the
project's revision differs from it (sync.rs:270-279). -/
def shouldRemove (rp : RemoveProject) (p : Project) : Bool :=
  removeMatches rp p &&
    (match rp.base_rev with
     | some br => p.revision = some br
     | none => true)

/-- One `base.projects.retain(..)` pass for a single remove-project,
sync.rs:255-285. -/
def applyRemove (projects : List Project) (rp : RemoveProject) : List Project :=
  projects.filter (fun p => ! shouldRemove rp p)

/-- The removal loop over all remove-projects of the overlay, sync.rs:253-307.
The `optional` branch (sync.rs:287-306) only emits a debug diagnostic and does
not change the project list. -/
def removePhase (projects : List Project) (rps : List RemoveProject) : List Project :=
  rps.foldl applyRemove projects

/-- Field overwrites of the extend-project loop body, sync.rs:318-338:
each field the extension supplies replaces the project's (the extension's
`dest_path` lands in the project's `path`); `base_rev` is read but unused. -/
def overwriteFields (ext : ExtendProject) (p : Project) : Project :=
  let p := match ext.dest_path with
           | some dp => { p with path := some dp }
           | none => p
  let p := match ext.groups with
           | some g => { p with groups := some g }
           | none => p
  let p := match ext.revision with
           | some r => { p with revision := some r }
           | none => p
  let p := match ext.remote with
           | some r => { p with remote := some r }
           | none => p
  let p := match ext.dest_branch with
           | some d => { p with dest_branch := some d }
           | none => p
  match ext.upstream with
  | some u => { p with upstream := some u }
  | none => p

/-- Effect of one extend-project on one project, sync.rs:311-341: the name
must match, and when the extension carries a path it must equal the
project's path (sync.rs:313-317, the `continue`), else the project is
untouched. -/
def applyExtendToProject (ext : ExtendProject) (p : Project) : Project :=
  if p.name = ext.name then
    match ext.path with
    | some q => if p.path = some q then overwriteFields ext p else p
    | none => overwriteFields ext p
  else p

/-- One extend-project applied across the whole project list, sync.rs:311-341. -/
def applyExtend (projects : List Project) (ext : ExtendProject) : List Project :=
  projects.map (applyExtendToProject ext)

/-- The extension loop over all extend-projects of the overlay, sync.rs:310-342. -/
def extendPhase (projects : List Project) (exts : List ExtendProject) : List Project :=
  exts.foldl applyExtend projects

/-- `merge_manifests`, sync.rs:251-355.  Removals, then extensions, then the
sequence concatenations and single-value overrides of sync.rs:344-354.  The
fields `notice`, `copyfiles`, `linkfiles` and `annotations` of the base are
not touched by any line of `merge_manifests`. -/
def merge_manifests (base : Manifest) (ovl : Manifest) : Manifest :=
  let projects1 := removePhase base.projects ovl.remove_projects
  let projects2 := extendPhase projects1 ovl.extend_projects
  { base with
    remotes := base.remotes ++ ovl.remotes
    default := ovl.default.orElse (fun _ => base.default)
    manifest_server := ovl.manifest_server.orElse (fun _ => base.manifest_server)
    submanifests := base.submanifests ++ ovl.submanifests
    remove_projects := base.remove_projects ++ ovl.remove_projects
    projects := projects2 ++ ovl.projects
    extend_projects := base.extend_projects ++ ovl.extend_projects
    repo_hooks := ovl.repo_hooks.orElse (fun _ => base.repo_hooks)
    superproject := ovl.superproject.orElse (fun _ => base.superproject)
    contactinfo := ovl.contactinfo.orElse (fun _ => base.contactinfo)
    includes := base.includes ++ ovl.includes }

/-! ### Project-element parsing (lib.rs `parse_project`, lines 450-491)

A project element is embedded as its list of XML attributes, each a
(key, value) pair of already-unescaped strings, in document order. -/

/-- The zero-initialized project of lib.rs:454-467. -/
def emptyProject : Project :=
  { name := "", path := none, remote := none, revision := none, dest_branch := none,
    groups := none, sync_c := none, sync_s := none, sync_tags := none, upstream := none,
    clone_depth := none, force_path := none, copyfiles := [], linkfiles := [] }

/-- One iteration of the attribute loop of `parse_project`, lib.rs:468-485.
Note lib.rs:478 matches the key `sync_s` (underscore), not `sync-s`. -/
def applyProjectAttr (p : Project) (attr : String × String) : Project :=
  match attr.1 with
  | "name" => { p with name := attr.2 }
  | "path" => { p with path := some attr.2 }
  | "remote" => { p with remote := some attr.2 }
  | "revision" => { p with revision := some attr.2 }
  | "dest-branch" => { p with dest_branch := some attr.2 }
  | "groups" => { p with groups := some attr.2 }
  | "sync-c" => { p with sync_c := some attr.2 }
  | "sync_s" => { p with sync_s := some attr.2 }
  | "sync-tags" => { p with sync_tags := some attr.2 }
  | "upstream" => { p with upstream := some attr.2 }
  | "clone-depth" => { p with clone_depth := some attr.2 }
  | "force-path" => { p with force_path := some attr.2 }
  | _ => p

/-- `parse_project`, lib.rs:450-491: fold the attributes over the zero
project, then reject an empty `name` (lib.rs:486-488). -/
def parse_project (attrs : List (String × String)) : Except String Project :=
  let p := attrs.foldl applyProjectAttr emptyProject
  if p.name = "" then
    Except.error "Missing required attribute 'name' in project element"
  else Except.ok p

/-! ### Error aggregation (sync.rs `handle_errors`, lines 525-539) -/

/-- The log lines emitted by `handle_errors` for a non-empty error list,
sync.rs:531-533. -/
def handle_errors_logs (errors : List (String × String)) : List String :=
  errors.map (fun e => "Error in project '" ++ e.1 ++ "': " ++ e.2)

/-- `handle_errors`, sync.rs:525-539: with a non-empty error list and
`keep == false` the call fails with the fixed message; otherwise it
succeeds. -/
def handle_errors (errors : List (String × String)) (keep : Bool) : Except String Unit :=
  if errors.isEmpty then Except.ok ()
  else if keep then Except.ok ()
  else Except.error "Sync failed due to errors"

/-- `pat` is a leading piece of `l`. -/
def isPrefixChars : List Char → List Char → Bool
  | [], _ => true
  | _ :: _, [] => false
  | a :: as, b :: bs => a = b && isPrefixChars as bs

/-- `pat` occurs somewhere inside `hay`. -/
def containsChars (hay pat : List Char) : Bool :=
  match hay with
  | [] => isPrefixChars pat []
  | _ :: rest => isPrefixChars pat hay || containsChars rest pat

/-- Substring test used to state whether an error message names a project. -/
def containsStr (hay pat : String) : Bool :=
  containsChars hay.toList pat.toList

/-! ### File materializer (sync.rs lines 135-208)

Absolute paths are embedded as their lists of components after `/`, exactly
as Rust's `Path::components` yields them: `..` stays a literal component
(`Component::ParentDir` is not resolved by `Path::join` or
`Path::starts_with`).  The filesystem is a state of existing files,
directories and symlinks. -/

/-- Path components of an absolute path; `".."` is a literal component. -/
abbrev PathC := List String

/-- `Path::join` with a relative path: component concatenation. -/
def joinPath (base : PathC) (rel : PathC) : PathC := base ++ rel

/-- `p.starts_with(q)`: `q`'s components are a prefix of `p`'s components,
with no resolution of `..`. -/
def startsWith (p q : PathC) : Bool := List.isPrefixOf q p

/-- Lexical resolution of `..` components, as the operating system resolves
the path when the file operation finally runs: `..` pops the last component
(at the root it stays at the root). -/
def normComponents (p : PathC) : PathC :=
  p.foldl (fun acc c => if c = ".." then acc.dropLast else acc ++ [c]) []

/-- A path lies inside the target root when its resolved form still has the
resolved target root as a prefix. -/
def insideRoot (target p : PathC) : Bool :=
  startsWith (normComponents p) (normComponents target)

/-- Render a component path the way Rust's `Path::display` renders the
absolute paths in the error messages of sync.rs:179-201. -/
def displayPath (p : PathC) : String := "/" ++ String.intercalate "/" p

/-- Filesystem state: the sets of existing regular files, directories, and
symlinks (destination paired with link target). -/
structure FsState where
  files : List PathC
  dirs : List PathC
  links : List (PathC × PathC)
deriving Repr, DecidableEq

/-- `Path::exists` over the state. -/
def pathExists (fs : FsState) (p : PathC) : Bool :=
  fs.files.contains p || fs.dirs.contains p || fs.links.any (fun l => l.1 = p)

/-- `Path::is_dir` over the state. -/
def isDirPath (fs : FsState) (p : PathC) : Bool := fs.dirs.contains p

/-- `Path::is_file` over the state. -/
def isFilePath (fs : FsState) (p : PathC) : Bool := fs.files.contains p

/-- `fs::create_dir_all(dest.parent())`, sync.rs:189-191: the parent
directory of `dest` comes into existence. -/
def mkParentDirs (fs : FsState) (dest : PathC) : FsState :=
  { fs with dirs := fs.dirs ++ [dest.dropLast] }

/-- `handle_copyfiles_and_linkfiles`, sync.rs:168-208, as a state
transformer: the containment check of sync.rs:175-177 first, then the
existence and type checks, parent creation, and the copy or symlink. -/
def handle_copyfiles_and_linkfiles (fs : FsState) (src dest target : PathC)
    (is_symlink : Bool) : Except String FsState :=
  if !(startsWith src target) || !(startsWith dest target) then
    Except.error "Source or destination path is outside the target directory"
  else if !(pathExists fs src) then
    Except.error ("Source '" ++ displayPath src ++ "' does not exist")
  else if pathExists fs dest && isDirPath fs dest then
    Except.error ("Destination '" ++ displayPath dest ++ "' is a directory")
  else
    let fs := mkParentDirs fs dest
    if is_symlink then
      Except.ok { fs with links := fs.links ++ [(dest, src)] }
    else if !(isFilePath fs src) then
      Except.error ("Source '" ++ displayPath src ++ "' is not a file")
    else if pathExists fs dest && !(isFilePath fs dest) then
      Except.error ("Destination '" ++ displayPath dest ++ "' is not a file")
    else
      Except.ok { fs with files := fs.files ++ [dest] }

/-- Split a character list at every occurrence of `c`. -/
def splitOnChar (c : Char) : List Char → List (List Char)
  | [] => [[]]
  | a :: rest =>
      match splitOnChar c rest with
      | [] => if a = c then [[], []] else [[a]]
      | h :: t => if a = c then [] :: h :: t else (a :: h) :: t

/-- Split a manifest path string on `/` into components, as Rust's
`Path::join` of a multi-component relative string behaves. -/
def strToPath (s : String) : PathC :=
  ((splitOnChar '/' s.toList).map (fun cs => String.mk cs)).filter (fun c => c ≠ "")

/-- The per-project body of the materialization loop of `sync_repos`,
sync.rs:135-155: every copyfile then every linkfile of the project, each
joined against the project directory and the target root, each followed by
`?` so the first failure aborts. -/
def materializeProject (target : PathC) (fs : FsState) (p : Project) :
    Except String FsState := do
  let ppath := joinPath target (strToPath (p.path.getD p.name))
  let fs ← p.copyfiles.foldlM
    (fun fs cf =>
      handle_copyfiles_and_linkfiles fs (joinPath ppath (strToPath cf.src))
        (joinPath target (strToPath cf.dest)) target false) fs
  p.linkfiles.foldlM
    (fun fs lf =>
      handle_copyfiles_and_linkfiles fs (joinPath ppath (strToPath lf.src))
        (joinPath target (strToPath lf.dest)) target true) fs

/-- The whole materialization step of `sync_repos`, sync.rs:135-155.  The
`keep` parameter is the `options.keep` value in scope during the loop; no
line of the loop reads it (every directive call ends in `?`). -/
def materializePhase (_keep : Bool) (target : PathC) (fs : FsState)
    (projects : List Project) : Except String FsState :=
  projects.foldlM (materializeProject target) fs

/-- Decidable equality for embedded `Result` values. -/
instance {ε α : Type} [DecidableEq ε] [DecidableEq α] : DecidableEq (Except ε α) :=
  fun a b =>
    match a, b with
    | Except.ok x, Except.ok y => decidable_of_iff (x = y) (by simp)
    | Except.error e, Except.error f => decidable_of_iff (e = f) (by simp)
    | Except.ok _, Except.error _ => isFalse (by simp)
    | Except.error _, Except.ok _ => isFalse (by simp)

/-! ### Sync scheduler (sync.rs lines 105-133)

One submitted unit of work per project; the unit's body is `process_project`,
abstracted as its outcome.  The pool is embedded by its serialized execution
in submission order: the shared state is the mutex-guarded error list and the
atomic stop flag, and `executed` records which units ran their bodies. -/

/-- One submitted unit: the project's name and the outcome its body would
produce. -/
structure SchedUnit where
  name : String
  result : Except String Unit
deriving Repr, DecidableEq

/-- Shared scheduler state: the error list (sync.rs:105), the stop flag
(sync.rs:107), and the trace of units whose bodies executed. -/
structure SchedState where
  errors : List (String × String)
  stop_flag : Bool
  executed : List String
deriving Repr, DecidableEq

/-- One unit's execution, sync.rs:119-128: with `keep == false` a tripped
stop flag makes the unit return before its body (sync.rs:120-122); otherwise
the body runs, and a failure is appended to the shared list and trips the
flag (sync.rs:123-127). -/
def runUnit (keep : Bool) (st : SchedState) (u : SchedUnit) : SchedState :=
  if !keep && st.stop_flag then st
  else
    let st := { st with executed := st.executed ++ [u.name] }
    match u.result with
    | Except.ok _ => st
    | Except.error e =>
        { st with errors := st.errors ++ [(u.name, e)], stop_flag := true }

/-- The scheduler run over all submitted units in submission order,
sync.rs:109-131. -/
def runScheduler (keep : Bool) (units : List SchedUnit) : SchedState :=
  units.foldl (runUnit keep) { errors := [], stop_flag := false, executed := [] }

/-! ### Concrete fixtures used by counterexamples and witnesses -/

/-- The all-empty manifest of lib.rs:219-235. -/
def emptyManifest : Manifest :=
  { notice := none, remotes := [], default := none, manifest_server := none,
    submanifests := [], remove_projects := [], projects := [], extend_projects := [],
    repo_hooks := none, superproject := none, contactinfo := none, includes := [],
    copyfiles := [], linkfiles := [], annotations := [] }

/-- An overlay manifest carrying one copyfile, one linkfile and one
annotation element. -/
def cOvl : Manifest :=
  { emptyManifest with
    copyfiles := [{ src := "cs", dest := "cd" }],
    linkfiles := [{ src := "ls", dest := "ld" }],
    annotations := [{ name := "an", value := "av", keep := true }] }

/-- A remote named `origin` fetching from `https://e.com`. -/
def wRemote : Remote :=
  { name := "origin", «alias» := none, fetch := "https://e.com", pushurl := none,
    review := none, revision := none }

/-- A project pinned to remote `origin` and revision `main`. -/
def wProject : Project :=
  { emptyProject with name := "a/b", remote := some "origin", revision := some "main" }

/-- A manifest holding only the `origin` remote. -/
def wManifest : Manifest := { emptyManifest with remotes := [wRemote] }

/-- A filesystem with `/work/proj/f` present under the target root `/work`. -/
def fsWork : FsState :=
  { files := [["work", "proj", "f"]], dirs := [["work"], ["work", "proj"]], links := [] }

/-- A project whose first copyfile has a missing source and whose second
copyfile would succeed. -/
def projBadCopy : Project :=
  { emptyProject with
    name := "p",
    copyfiles := [{ src := "missing", dest := "out1" }, { src := "f", dest := "out2" }] }

/-- A filesystem with `/work/p/f` present under the target root `/work`. -/
def fsP : FsState :=
  { files := [["work", "p", "f"]], dirs := [["work"], ["work", "p"]], links := [] }

/-- The specification's wording of the remove-project match: by name,
narrowed to equal path when the remove-project also carries a path, or by
path alone when it has no name. -/
def MatchesRemoveSpec (rp : RemoveProject) (p : Project) : Prop :=
  (∃ n, rp.name = some n ∧ p.name = n ∧ ∀ q, rp.path = some q → p.path = some q)
  ∨ (rp.name = none ∧ ∃ q, rp.path = some q ∧ p.path = some q)

/-- The specification's wording of the full removal condition: a match whose
`base_rev`, when present, equals the project's revision exactly. -/
def RemovedBySpec (rp : RemoveProject) (p : Project) : Prop :=
  MatchesRemoveSpec rp p ∧ ∀ br, rp.base_rev = some br → p.revision = some br

/-- The failure record a unit contributes to the shared list, sync.rs:123-126. -/
def schedFailure (u : SchedUnit) : Option (String × String) :=
  match u.result with
  | Except.ok _ => none
  | Except.error e => some (u.name, e)

/-- A remove-project guarded by `base-rev = X`. -/
def wRemoveXY : RemoveProject :=
  { name := some "a/b", path := none, optional := none, base_rev := some "X" }

/-- A project at revision `X`. -/
def wProjX : Project := { emptyProject with name := "a/b", revision := some "X" }

/-- A project at revision `Y`. -/
def wProjY : Project := { emptyProject with name := "a/b", revision := some "Y" }

/-- An extend-project naming a project absent from the fixtures. -/
def wExt : ExtendProject :=
  { name := "other", path := none, dest_path := none, groups := none,
    revision := some "dev", remote := none, dest_branch := none, upstream := none,
    base_rev := none }

/-- A remove-project with neither name nor path, but with optional and
base-rev attributes set. -/
def wRemoveEmpty : RemoveProject :=
  { name := none, path := none, optional := some "true", base_rev := some "X" }

/-! ### Claim theorems -/

/-- Two successive filters collapse to one conjunction filter. -/
theorem filter_and_filter {α : Type} (f g : α → Bool) (l : List α) :
    (l.filter f).filter g = l.filter (fun a => f a && g a) := by
  induction l with
  | nil => rfl
  | cons a l ih =>
      by_cases hf : f a <;> by_cases hg : g a <;>
        simp [List.filter_cons, hf, hg, ih]

/-- The sequence of `retain` passes of the removal loop equals one filter by
"no remove-project removes this project". -/
theorem removePhase_eq_filter (rps : List RemoveProject) (ps : List Project) :
    removePhase ps rps =
      ps.filter (fun p => ! rps.any (fun rp => shouldRemove rp p)) := by
  induction rps generalizing ps with
  | nil => simp [removePhase]
  | cons rp rps ih =>
      show removePhase (applyRemove ps rp) rps = _
      rw [ih, applyRemove, filter_and_filter]
      apply List.filter_congr
      intro p _
      simp [List.any_cons, Bool.not_or, Bool.and_comm]

/-- C2 (code bug evidence): `parse_project` recovers the hyphenated
attributes (`sync-c` shown) but drops a `sync-s` attribute because
lib.rs:478 matches the key `sync_s` with an underscore; only a document
attribute literally spelled `sync_s` reaches the `sync_s` field.  The spec's
schema (and every sibling attribute of the element) uses the hyphenated
spelling `sync-s`, so the attribute named by the spec never round-trips. -/
theorem parse_project_sync_s_dropped :
    parse_project [("name", "p"), ("sync-s", "true")] =
      Except.ok { emptyProject with name := "p" }
    ∧ parse_project [("name", "p"), ("sync-c", "true")] =
        Except.ok { emptyProject with name := "p", sync_c := some "true" }
    ∧ parse_project [("name", "p"), ("sync_s", "true")] =
        Except.ok { emptyProject with name := "p", sync_s := some "true" } :=
  ⟨rfl, rfl, rfl⟩

/-- C5 (counterexample): merging an overlay that carries a copyfile, a
linkfile and an annotation leaves the base's `copyfiles`, `linkfiles` and
`annotations` sequences unchanged — sync.rs:344-354 never extends these
three, so they are not the base-then-overlay concatenation the claim
states. -/
theorem merge_concat_counterexample :
    (merge_manifests emptyManifest cOvl).copyfiles ≠
        emptyManifest.copyfiles ++ cOvl.copyfiles
    ∧ (merge_manifests emptyManifest cOvl).linkfiles ≠
        emptyManifest.linkfiles ++ cOvl.linkfiles
    ∧ (merge_manifests emptyManifest cOvl).annotations ≠
        emptyManifest.annotations ++ cOvl.annotations := by
  refine ⟨by decide, by decide, by decide⟩

/-- C5 (amended): the merge concatenates six sequences — remotes,
submanifests, remove-project records, projects (post-removal,
post-extension), extend-project records and includes — overlay after base,
while the manifest-level copyfiles, linkfiles and annotations sequences stay
exactly the base's (the overlay's are dropped). -/
theorem merge_concat_amended (base ovl : Manifest) :
    (merge_manifests base ovl).remotes = base.remotes ++ ovl.remotes
    ∧ (merge_manifests base ovl).submanifests = base.submanifests ++ ovl.submanifests
    ∧ (merge_manifests base ovl).remove_projects =
        base.remove_projects ++ ovl.remove_projects
    ∧ (merge_manifests base ovl).projects =
        extendPhase (removePhase base.projects ovl.remove_projects) ovl.extend_projects
          ++ ovl.projects
    ∧ (merge_manifests base ovl).extend_projects =
        base.extend_projects ++ ovl.extend_projects
    ∧ (merge_manifests base ovl).includes = base.includes ++ ovl.includes
    ∧ (merge_manifests base ovl).copyfiles = base.copyfiles
    ∧ (merge_manifests base ovl).linkfiles = base.linkfiles
    ∧ (merge_manifests base ovl).annotations = base.annotations :=
  ⟨rfl, rfl, rfl, rfl, rfl, rfl, rfl, rfl, rfl⟩

/-- C6 (counterexample): with one failing unit and `keep == false`,
`handle_errors` returns the fixed message `Sync failed due to errors`,
which does not name the failing project `projA` — the collected pairs reach
only the log, not the returned error. -/
theorem handle_errors_counterexample :
    handle_errors [("projA", "git clone failed")] false =
      Except.error "Sync failed due to errors"
    ∧ containsStr "Sync failed due to errors" "projA" = false := by
  refine ⟨rfl, by decide⟩

/-- C6 (amended): `handle_errors` succeeds exactly when the error list is
empty or `keep` is true; with failures and `keep == false` it returns the
fixed aggregate message `Sync failed due to errors` (the per-project names
appear only in the emitted log lines, one per collected pair). -/
theorem handle_errors_amended (errors : List (String × String)) (keep : Bool) :
    (handle_errors errors keep = Except.ok () ↔ (errors = [] ∨ keep = true))
    ∧ (errors ≠ [] → keep = false →
        handle_errors errors keep = Except.error "Sync failed due to errors")
    ∧ (∀ pr msg, (pr, msg) ∈ errors →
        ("Error in project '" ++ pr ++ "': " ++ msg) ∈ handle_errors_logs errors) := by
  refine ⟨?_, ?_, ?_⟩
  · cases errors <;> cases keep <;> simp [handle_errors]
  · intro hne hk
    cases errors with
    | nil => exact absurd rfl hne
    | cons e es => subst hk; simp [handle_errors]
  · intro pr msg hmem
    exact List.mem_map_of_mem _ hmem

/-- C6 (witness): the amended behavior at one failing unit. -/
theorem handle_errors_amended_witness :
    handle_errors [("projA", "boom")] false = Except.error "Sync failed due to errors"
    ∧ "Error in project 'projA': boom" ∈ handle_errors_logs [("projA", "boom")] := by
  refine ⟨(handle_errors_amended [("projA", "boom")] false).2.1 (by decide) rfl, ?_⟩
  exact (handle_errors_amended [("projA", "boom")] false).2.2 "projA" "boom" (by decide)

/-- C7 (code bug evidence): the containment check of sync.rs:175 is Rust's
component-wise `starts_with`, which does not resolve `..`.  Joining the
copyfile destination `../evil` under the target root `/work` yields
`/work/../evil`; the check passes, `handle_copyfiles_and_linkfiles` runs to
completion and copies the file — yet the destination resolves to `/evil`,
outside the target root, contradicting the claimed containment safety. -/
theorem copyfile_containment_bypass :
    joinPath ["work"] (strToPath "../evil") = ["work", "..", "evil"]
    ∧ startsWith ["work", "..", "evil"] ["work"] = true
    ∧ handle_copyfiles_and_linkfiles fsWork ["work", "proj", "f"]
        ["work", "..", "evil"] ["work"] false =
      Except.ok
        { files := [["work", "proj", "f"], ["work", "..", "evil"]],
          dirs := [["work"], ["work", "proj"], ["work", ".."]], links := [] }
    ∧ insideRoot ["work"] ["work", "..", "evil"] = false := by
  refine ⟨by decide, by decide, by decide, by decide⟩

/-- C8 (counterexample): with `keep == true`, the first failing copy
directive still aborts the whole materialization step — the loop of
sync.rs:135-155 propagates every failure with `?` and never consults
`keep`, so the second (viable) directive of the project is not attempted. -/
theorem materialize_keep_counterexample :
    materializePhase true ["work"] fsP [projBadCopy] =
      Except.error "Source '/work/p/missing' does not exist" := by decide

/-- C8 (amended): materialization is not gated by `keep` at all — its result
is identical for any two values of `keep`, and the first failing directive
aborts the whole step under either value. -/
theorem materialize_keep_amended (k1 k2 : Bool) (target : PathC) (fs : FsState)
    (projects : List Project) (p : Project) (e : String) :
    (materializePhase k1 target fs projects = materializePhase k2 target fs projects)
    ∧ (materializeProject target fs p = Except.error e →
        ∀ keep rest, materializePhase keep target fs (p :: rest) = Except.error e) := by
  refine ⟨rfl, ?_⟩
  intro h keep rest
  show (p :: rest).foldlM (materializeProject target) fs = Except.error e
  rw [List.foldlM_cons, h]
  rfl

/-- C8 (witness): the amended abort behavior at a concrete failing
directive, under `keep == false`. -/
theorem materialize_keep_amended_witness :
    materializePhase false ["work"] fsP [projBadCopy] =
      Except.error "Source '/work/p/missing' does not exist" :=
  (materialize_keep_amended true false ["work"] fsP [] projBadCopy
      "Source '/work/p/missing' does not exist").2 (by decide) false []

/-- C1: per-project resolution resolves the remote name as `project.remote`,
else `manifest.default.remote`, else the literal `origin`; remote lookup
fails with the remote-not-found error exactly when no remote in the manifest
carries that name, and on success the repository URL is
`{remote.fetch}/{project.name}.git`; the revision is `project.revision`,
else `manifest.default.revision`, and otherwise resolution fails with a
message distinguishing a missing default element from a default element
without a revision. -/
theorem process_project_resolution (p : Project) (m : Manifest) :
    (∀ r, p.remote = some r → remoteName p m = r)
    ∧ (∀ d r, p.remote = none → m.default = some d → d.remote = some r →
        remoteName p m = r)
    ∧ (p.remote = none → m.default.bind (fun d => d.remote) = none →
        remoteName p m = "origin")
    ∧ ((∀ r ∈ m.remotes, r.name ≠ remoteName p m) ↔
        resolveRemote p m =
          Except.error ("Remote '" ++ remoteName p m ++ "' not found in manifest"))
    ∧ (∀ r, resolveRemote p m = Except.ok r →
        r ∈ m.remotes ∧ r.name = remoteName p m
          ∧ repoUrl r p = r.fetch ++ "/" ++ p.name ++ ".git")
    ∧ (∀ r rev, resolveRemote p m = Except.ok r →
        resolveRevision p m = Except.ok rev →
        process_project_resolve p m =
          Except.ok (r.fetch ++ "/" ++ p.name ++ ".git", rev))
    ∧ (∀ rev, p.revision = some rev → resolveRevision p m = Except.ok rev)
    ∧ (∀ d rev, p.revision = none → m.default = some d → d.revision = some rev →
        resolveRevision p m = Except.ok rev)
    ∧ (p.revision = none → m.default = none →
        resolveRevision p m =
          Except.error "Default element is missing and project does not specify a revision")
    ∧ (∀ d, p.revision = none → m.default = some d → d.revision = none →
        resolveRevision p m =
          Except.error
            "Default element does not specify a revision and project does not specify a revision") := by
  refine ⟨?_, ?_, ?_, ?_, ?_, ?_, ?_, ?_, ?_, ?_⟩
  · intro r h
    simp [remoteName, h, Option.orElse]
  · intro d r hp hd hr
    simp [remoteName, hp, hd, hr, Option.orElse]
  · intro hp hd
    simp [remoteName, hp, hd, Option.orElse]
  · constructor
    · intro h
      have hf : m.remotes.find? (fun r => r.name = remoteName p m) = none := by
        rw [List.find?_eq_none]
        intro r hr
        simpa using h r hr
      simp [resolveRemote, hf]
    · intro h r hr hname
      have hs : (m.remotes.find? (fun x => x.name = remoteName p m)).isSome :=
        List.find?_isSome.mpr ⟨r, hr, by simp [hname]⟩
      rcases Option.isSome_iff_exists.mp hs with ⟨y, hy⟩
      rw [resolveRemote, hy] at h
      exact absurd h (by simp)
  · intro r h
    unfold resolveRemote at h
    cases hf : m.remotes.find? (fun x => x.name = remoteName p m) with
    | none => rw [hf] at h; exact absurd h (by simp)
    | some y =>
        rw [hf] at h
        cases h
        refine ⟨List.mem_of_find?_eq_some hf, ?_, rfl⟩
        simpa using List.find?_some hf
  · intro r rev h1 h2
    simp only [process_project_resolve, h1, h2]
    rfl
  · intro rev h
    simp [resolveRevision, h, Option.orElse]
  · intro d rev hp hd hr
    simp [resolveRevision, hp, hd, hr, Option.orElse]
  · intro hp hd
    simp [resolveRevision, hp, hd, Option.orElse]
  · intro d hp hd hr
    simp [resolveRevision, hp, hd, hr, Option.orElse]

/-- C1 (witness): the resolution at a concrete project and manifest. -/
theorem process_project_resolution_witness :
    remoteName wProject wManifest = "origin"
    ∧ process_project_resolve wProject wManifest =
        Except.ok (wRemote.fetch ++ "/" ++ wProject.name ++ ".git", "main") := by
  refine ⟨(process_project_resolution wProject wManifest).1 "origin" rfl, ?_⟩
  exact (process_project_resolution wProject wManifest).2.2.2.2.2.1 wRemote "main"
    (by decide) (by decide)

/-- C3: the removal pass of the merge deletes exactly the base projects that
some overlay remove-project removes — matching by name (narrowed to equal
path when the remove-project carries a path) or by path alone when it has no
name — where a remove-project with `base-rev` removes a match only when the
project's revision equals it exactly; in particular a `base-rev = X` record
removes a matching project at revision `X` and spares one at `Y ≠ X`. -/
theorem remove_project_semantics (base ovl : Manifest) :
    (removePhase base.projects ovl.remove_projects =
      base.projects.filter
        (fun p => ! ovl.remove_projects.any (fun rp => shouldRemove rp p)))
    ∧ (∀ rp p, shouldRemove rp p = true ↔ RemovedBySpec rp p)
    ∧ (∀ rp p X, rp.base_rev = some X → removeMatches rp p = true →
        p.revision = some X → shouldRemove rp p = true)
    ∧ (∀ rp p X Y, Y ≠ X → rp.base_rev = some X → p.revision = some Y →
        shouldRemove rp p = false) := by
  refine ⟨removePhase_eq_filter _ _, ?_, ?_, ?_⟩
  · intro rp p
    cases hn : rp.name <;> cases hpp : rp.path <;> cases hb : rp.base_rev <;>
      simp [shouldRemove, removeMatches, RemovedBySpec, MatchesRemoveSpec, hn, hpp, hb]
  · intro rp p X hb hm hrev
    simp [shouldRemove, hm, hb, hrev]
  · intro rp p X Y hne hb hrev
    simp [shouldRemove, hb, hrev, hne]

/-- C3 (witness): a `base-rev = X` remove-project removes the project at
revision `X` and spares the one at revision `Y`. -/
theorem remove_project_semantics_witness :
    shouldRemove wRemoveXY wProjX = true ∧ shouldRemove wRemoveXY wProjY = false := by
  constructor
  · exact (remove_project_semantics emptyManifest emptyManifest).2.2.1 wRemoveXY wProjX "X"
      rfl (by decide) rfl
  · exact (remove_project_semantics emptyManifest emptyManifest).2.2.2 wRemoveXY wProjY "X"
      "Y" (by decide) rfl rfl

/-- `overwriteFields` replaces exactly the six fields the extension
supplies and leaves every other field of the project unchanged. -/
theorem overwriteFields_spec (ext : ExtendProject) (p : Project) :
    overwriteFields ext p =
      { p with
        path := ext.dest_path.elim p.path some,
        groups := ext.groups.elim p.groups some,
        revision := ext.revision.elim p.revision some,
        remote := ext.remote.elim p.remote some,
        dest_branch := ext.dest_branch.elim p.dest_branch some,
        upstream := ext.upstream.elim p.upstream some } := by
  unfold overwriteFields
  cases ext.dest_path <;> cases ext.groups <;> cases ext.revision <;> cases ext.remote <;>
    cases ext.dest_branch <;> cases ext.upstream <;> rfl

/-- C4: an extend-project leaves untouched every project whose name differs
or whose path fails a supplied path guard; a project that matches has
exactly the supplied fields overwritten (`dest_path` into `path`, and
`groups`, `revision`, `remote`, `dest_branch`, `upstream` when supplied),
every other field keeping its value. -/
theorem extend_project_frame (ext : ExtendProject) (p : Project) (ps : List Project) :
    (p.name ≠ ext.name → applyExtendToProject ext p = p)
    ∧ (∀ q, ext.path = some q → p.path ≠ some q → applyExtendToProject ext p = p)
    ∧ (p.name = ext.name → (ext.path = none ∨ ext.path = p.path) →
        applyExtendToProject ext p =
          { p with
            path := ext.dest_path.elim p.path some,
            groups := ext.groups.elim p.groups some,
            revision := ext.revision.elim p.revision some,
            remote := ext.remote.elim p.remote some,
            dest_branch := ext.dest_branch.elim p.dest_branch some,
            upstream := ext.upstream.elim p.upstream some })
    ∧ applyExtend ps ext = ps.map (applyExtendToProject ext) := by
  refine ⟨?_, ?_, ?_, rfl⟩
  · intro h
    simp [applyExtendToProject, h]
  · intro q hq hne
    unfold applyExtendToProject
    rw [hq]
    by_cases hn : p.name = ext.name
    · simp [hn, hne]
    · simp [hn]
  · intro hn hg
    unfold applyExtendToProject
    rw [if_pos hn]
    rcases hg with hg | hg
    · rw [hg]
      exact overwriteFields_spec ext p
    · cases hq : ext.path with
      | none => exact overwriteFields_spec ext p
      | some q =>
          rw [hq] at hg
          show (if p.path = some q then overwriteFields ext p else p) = _
          rw [if_pos hg.symm]
          exact overwriteFields_spec ext p

/-- C4 (witness): an extension naming a different project leaves the
project untouched. -/
theorem extend_project_frame_witness :
    applyExtendToProject wExt wProject = wProject :=
  (extend_project_frame wExt wProject []).1 (by decide)

/-- With `keep == true`, the unit loop executes every unit's body in order
and collects exactly the failing units' records, from any starting state. -/
theorem runScheduler_keep_true_foldl (units : List SchedUnit) (st : SchedState) :
    ((units.foldl (runUnit true) st).executed = st.executed ++ units.map SchedUnit.name)
    ∧ ((units.foldl (runUnit true) st).errors =
        st.errors ++ units.filterMap schedFailure) := by
  induction units generalizing st with
  | nil => simp
  | cons u us ih =>
      rw [List.foldl_cons]
      rcases ih (runUnit true st u) with ⟨h1, h2⟩
      cases hr : u.result with
      | ok v =>
          rw [h1, h2]
          simp [runUnit, hr, schedFailure]
      | error e =>
          rw [h1, h2]
          simp [runUnit, hr, schedFailure]

/-- C9: under the default policy (`keep == true`, the mode without the
optional stop-on-first-failure flag check of sync.rs:120), every submitted
unit executes its body in submission order no matter which earlier units
failed, and each failure is only appended to the shared failure list. -/
theorem scheduler_no_skip_default (units : List SchedUnit) :
    (runScheduler true units).executed = units.map SchedUnit.name
    ∧ (runScheduler true units).errors = units.filterMap schedFailure := by
  have h :=
    runScheduler_keep_true_foldl units { errors := [], stop_flag := false, executed := [] }
  simpa [runScheduler] using h

/-- C10: a remove-project with neither a name nor a path removes nothing:
it matches no project, whatever its optional or base-rev attributes, and the
retain pass returns the project list unchanged. -/
theorem remove_project_empty_noop (rp : RemoveProject) (ps : List Project) :
    rp.name = none → rp.path = none →
      (∀ p, shouldRemove rp p = false) ∧ applyRemove ps rp = ps := by
  intro hn hp
  have hsr : ∀ p, shouldRemove rp p = false := by
    intro p
    simp [shouldRemove, removeMatches, hn, hp]
  refine ⟨hsr, ?_⟩
  simp [applyRemove, hsr]

/-- C10 (witness): the no-op removal at a concrete record carrying optional
and base-rev attributes. -/
theorem remove_project_empty_noop_witness :
    applyRemove [wProject] wRemoveEmpty = [wProject] :=
  (remove_project_empty_noop wRemoveEmpty [wProject] rfl rfl).2

end Gbsw
